import Mathlib

/-!
Verification of the honeypot session accumulator (`main.py`), keyword scorer
(`detector.py`), intelligence merge (`main.py` / `extractor.py` interface),
final-result reporter (`callback.py`) and maintenance sweep (`memory.py`).

The source is shallowly embedded: pure Python functions become Lean functions;
the request handler becomes a pure function over an explicit session/store
state, with the environment's nondeterminism (Redis availability and fault
outcomes, reporter delivery outcomes, clock readings, generated reply text)
passed in as explicit parameters.  Timestamps (Python ISO strings produced by
`datetime.utcnow()`) are modelled as integers; Python `str.lower` is modelled
per-character by `Char.toLower`, which agrees on the ASCII texts the keyword
table uses.  The intelligence extractor (`extractor.py`, regex-based) and the
reply generator (`agent.py`) are external collaborators per the design: the
accumulator is parametric in them.
-/

namespace Honeypot

/-- The weighted keyword table `SCAM_SIGNALS` of `detector.py` (57 entries,
keys are distinct, all lowercase). -/
def SCAM_SIGNALS : List (String × Nat) := [
  ("urgent", 2), ("urgently", 2), ("immediately", 2), ("right now", 2),
  ("asap", 2), ("hurry", 2), ("quick", 1), ("fast", 1),
  ("blocked", 3), ("suspended", 3), ("locked", 3), ("frozen", 3),
  ("account suspended", 4), ("account blocked", 4), ("will be blocked", 3),
  ("will be suspended", 3),
  ("verify", 2), ("confirm", 2), ("update", 2), ("validate", 2),
  ("authenticate", 2), ("reactivate", 2),
  ("bank", 1), ("upi", 3), ("account", 1), ("payment", 1),
  ("transaction", 1), ("refund", 2), ("pending", 1), ("debit", 2),
  ("credit", 1),
  ("click", 2), ("click here", 3), ("tap", 2), ("download", 2),
  ("install", 2), ("share", 2), ("provide", 2), ("send", 2),
  ("otp", 3), ("password", 3), ("pin", 3), ("cvv", 4),
  ("card number", 4), ("account number", 3), ("details", 1),
  ("bank representative", 2), ("customer care", 2), ("support team", 2),
  ("official", 1),
  ("lose", 2), ("lost", 2), ("expire", 2), ("expired", 2),
  ("limited time", 2), ("deadline", 2)]

/-- Model of Python `str.lower` applied to a string, as a character list. -/
def lowerChars (s : String) : List Char := s.toList.map Char.toLower

/-- Model of Python `str.strip()`: drop leading and trailing whitespace
(ASCII whitespace; Python also strips some rarer Unicode space classes,
which no keyword or test text uses). -/
def pyStrip (s : String) : String :=
  String.mk
    (((s.toList.dropWhile Char.isWhitespace).reverse.dropWhile
        Char.isWhitespace).reverse)

/-- `pat` is a prefix of `ts` (helper for the substring model). -/
def charsPrefix : List Char → List Char → Bool
  | [], _ => true
  | _ :: _, [] => false
  | a :: ps, b :: ts => a == b && charsPrefix ps ts

/-- Model of Python's substring operator `pat in ts` on character lists:
`pat` occurs contiguously somewhere in `ts`. -/
def charsContains (pat : List Char) : List Char → Bool
  | [] => charsPrefix pat []
  | t :: ts => charsPrefix pat (t :: ts) || charsContains pat ts

/-- Model of Python `keyword in text_lower` in `detect_scam_score`: the
keyword (stored lowercase in the table) occurs as a substring of the
lowercased text. -/
def containsKw (text kw : String) : Bool :=
  charsContains kw.toList (lowerChars text)

/-- `detector.py` `detect_scam_score`: 0 for falsy (empty) text, otherwise
the sum of the weights of the table entries found in the lowercased text,
accumulated in table order exactly as the Python loop does. -/
def detect_scam_score (text : String) : Nat :=
  if text = "" then 0
  else SCAM_SIGNALS.foldl
    (fun score p => if containsKw text p.1 then score + p.2 else score) 0

/-- `detector.py` `THRESHOLD`. -/
def THRESHOLD : Nat := 4

/-- `detector.py` `is_scam`: per-message score meets the threshold. -/
def is_scam (text : String) : Bool := decide (detect_scam_score text ≥ THRESHOLD)

/-- Spec-side scorer ("Modelled from the spec" for comparison only): sum of
the weights of all entries whose key occurs case-insensitively as a substring
of the text, each entry counted once.  Case-insensitivity lowers both the
keyword and the text, where the source lowers only the text; the two agree
because every table key is already lowercase. -/
def scoreSpec (text : String) : Nat :=
  ((SCAM_SIGNALS.filter (fun p => charsContains (lowerChars p.1) (lowerChars text))).map
    Prod.snd).sum

/-- `models.py` `Message`: one inbound message. -/
structure Message where
  sender : String
  text : String
  timestamp : Int
  deriving DecidableEq

/-- The six-field intelligence bundle, as created in `main.py` (session
initialisation) and produced by `extractor.py` `extract_intelligence`. -/
structure Intel where
  bankAccounts : List String
  upiIds : List String
  phishingLinks : List String
  phoneNumbers : List String
  suspiciousKeywords : List String
  emailAddresses : List String
  deriving DecidableEq

/-- Names of the six intelligence fields, for field-generic statements. -/
inductive IntelField
  | bankAccounts | upiIds | phishingLinks | phoneNumbers
  | suspiciousKeywords | emailAddresses
  deriving DecidableEq

/-- Projection of an `Intel` bundle at a field name. -/
def Intel.get (i : Intel) : IntelField → List String
  | .bankAccounts => i.bankAccounts
  | .upiIds => i.upiIds
  | .phishingLinks => i.phishingLinks
  | .phoneNumbers => i.phoneNumbers
  | .suspiciousKeywords => i.suspiciousKeywords
  | .emailAddresses => i.emailAddresses

/-- The empty bundle used at session creation (`main.py` lines 106-113). -/
def emptyIntel : Intel := ⟨[], [], [], [], [], []⟩

/-- Session state as built by `main.py` (lines 101-117).  Timestamps are
modelled as integers in place of ISO strings. -/
structure Session where
  sessionId : String
  messages : List Message
  scamDetected : Bool
  scamScore : Nat
  intel : Intel
  callbackSent : Bool
  createdAt : Int
  lastUpdated : Int
  deriving DecidableEq

/-- Fresh session created on first message for an id (`main.py` lines 101-117). -/
def initSession (sid : String) (now : Int) : Session :=
  { sessionId := sid
    messages := []
    scamDetected := false
    scamScore := 0
    intel := emptyIntel
    callbackSent := false
    createdAt := now
    lastUpdated := now }

/-- One field merge from `main.py` line 137:
`session["intel"][key] = list(set(session["intel"][key] + intel[key]))`.
Python's set iteration order is unspecified; the model fixes the
first-occurrence order via `dedup`, which has the same elements and no
duplicates. -/
def mergeField (old new : List String) : List String := (old ++ new).dedup

/-- The merge loop of `main.py` lines 135-137 on the six-field bundle (every
key of the extracted bundle is present in the stored bundle, see the
dict-level model `mergeIntelDict` below). -/
def mergeIntel (old ext : Intel) : Intel :=
  { bankAccounts := mergeField old.bankAccounts ext.bankAccounts
    upiIds := mergeField old.upiIds ext.upiIds
    phishingLinks := mergeField old.phishingLinks ext.phishingLinks
    phoneNumbers := mergeField old.phoneNumbers ext.phoneNumbers
    suspiciousKeywords := mergeField old.suspiciousKeywords ext.suspiciousKeywords
    emailAddresses := mergeField old.emailAddresses ext.emailAddresses }

/-- Core of the `chat` handler (`main.py` lines 119-163) after validation:
append the message, refresh `lastUpdated`, add the per-message score, latch
`scamDetected` on the per-message threshold test, merge extracted
intelligence, and fire the one-time final callback when eligible.  The
extractor is an external collaborator and is passed in as `extract`; the
reporter's delivery outcome `reporterResult` is accepted and, as in the
source (line 161 discards `send_final_callback`'s return value), never used.
Returns the updated session and whether the reporter was invoked. -/
def processMessage (extract : String → Intel) (reporterResult : Bool)
    (s : Session) (msg : Message) (now : Int) : Session × Bool :=
  let text := pyStrip msg.text
  let s1 := { s with messages := s.messages ++ [msg], lastUpdated := now }
  let s2 := { s1 with scamScore := s1.scamScore + detect_scam_score text }
  let s3 := if is_scam text && !s2.scamDetected
    then { s2 with scamDetected := true } else s2
  let s4 := { s3 with intel := mergeIntel s3.intel (extract text) }
  let messageCount := s4.messages.length
  if s4.scamDetected && decide (messageCount ≥ 8) && !s4.callbackSent then
    ({ s4 with callbackSent := true }, true)
  else
    (s4, false)

/-- One step's environment inputs: the inbound message, the clock reading,
and the reporter's delivery outcome if a callback fires on this step. -/
structure StepInput where
  msg : Message
  now : Int
  reporterResult : Bool
  deriving DecidableEq

/-- A whole session life: fold `processMessage` over a sequence of inbound
messages, counting reporter invocations. -/
def runProcess (extract : String → Intel) : Session → List StepInput → Session × Nat
  | s, [] => (s, 0)
  | s, inp :: rest =>
    let step := processMessage extract inp.reporterResult s inp.msg inp.now
    let tail := runProcess extract step.1 rest
    (tail.1, (if step.2 then 1 else 0) + tail.2)

/-- Request body (`models.py` `ChatRequest`); metadata is unused by the
handler and omitted. -/
structure ChatRequest where
  sessionId : String
  message : Message
  conversationHistory : List Message
  deriving DecidableEq

/-- Response body (`models.py` `ChatResponse`). -/
structure ChatResponse where
  status : String
  reply : String
  scamDetected : Bool
  scamScore : Nat
  messageCount : Nat
  deriving DecidableEq

/-- The two rejection paths of the `chat` handler: HTTP 401 (bad API key,
`main.py` line 81) and HTTP 400 (empty message text, line 91). -/
inductive ChatError
  | authError
  | validationError
  deriving DecidableEq

/-- A key-value store of sessions (Redis contents, or `memory.py`'s
`sessions` dict).  Keys are unique in both backends. -/
abbrev Store := List (String × Session)

/-- Lookup by session id. -/
def Store.lookup (store : Store) (sid : String) : Option Session :=
  (List.find? (fun p => p.1 == sid) store).map (fun p => p.2)

/-- Dict/`setex` assignment: overwrite in place when the key exists,
append otherwise. -/
def Store.set (store : Store) (sid : String) (s : Session) : Store :=
  if List.any store (fun p => p.1 == sid) then
    List.map (fun p => if p.1 == sid then (sid, s) else p) store
  else
    store ++ [(sid, s)]

/-- `redis_store.py` `get_session`: `none` client → no result; a connection
or decode fault (environment oracle `getOk = false`) is absorbed and also
yields no result; otherwise the stored value. -/
def get_session (redis : Option Store) (getOk : Bool) (sid : String) :
    Option Session :=
  match redis with
  | none => none
  | some st => if getOk then st.lookup sid else none

/-- `redis_store.py` `save_session`: `none` client → `false` without a write;
a backend fault (oracle `saveOk = false`) is caught, leaves the store
unchanged and returns `false`; otherwise the value is written (`setex`) and
`true` is returned. -/
def save_session (redis : Option Store) (saveOk : Bool) (sid : String)
    (s : Session) : Option Store × Bool :=
  match redis with
  | none => (none, false)
  | some st => if saveOk then (some (st.set sid s), true) else (some st, false)

/-- Full outcome of one request: HTTP-level result, both stores after the
request, and whether the reporter was invoked. -/
structure ChatOutcome where
  result : Except ChatError ChatResponse
  redis : Option Store
  memory : Store
  reporterCalled : Bool

/-- The `chat` endpoint (`main.py` lines 66-175).  `cfgKey` is the configured
`API_KEY`, `xApiKey` the request header; `extract` the external extractor;
`replyText` the reply produced by the external reply generator; `getOk` and
`saveOk` the Redis fault oracles; `now` the clock.  Mirrors the source
order: auth check, trim-and-validate, load (Redis first, then the in-memory
map), create-if-absent, mutate via `processMessage`, save to Redis with the
result discarded (line 166), store into the in-memory map (line 167), and
return the response view. -/
def chat (cfgKey xApiKey : String) (extract : String → Intel)
    (replyText : String) (redis : Option Store) (memory : Store)
    (getOk saveOk reporterResult : Bool) (body : ChatRequest) (now : Int) :
    ChatOutcome :=
  if xApiKey ≠ cfgKey then
    { result := .error .authError, redis := redis, memory := memory
      reporterCalled := false }
  else
    let text := pyStrip body.message.text
    if text = "" then
      { result := .error .validationError, redis := redis, memory := memory
        reporterCalled := false }
    else
      let sid := body.sessionId
      let loaded := match get_session redis getOk sid with
        | some s => some s
        | none => memory.lookup sid
      let session := loaded.getD (initSession sid now)
      let step := processMessage extract reporterResult session body.message now
      let saved := save_session redis saveOk sid step.1
      { result := .ok
          { status := "success"
            reply := replyText
            scamDetected := step.1.scamDetected
            scamScore := step.1.scamScore
            messageCount := step.1.messages.length }
        redis := saved.1
        memory := memory.set sid step.1
        reporterCalled := step.2 }

/-- Outcome of one HTTP POST attempt in `callback.py`: a status code, or one
of the fault classes its `except` arms distinguish. -/
inductive AttemptOutcome
  | status (code : Nat)
  | timeout
  | connectionError
  | otherError
  deriving DecidableEq

/-- An attempt counts as success exactly when the response status is 200
(`callback.py` line 44); every other status and every fault falls through to
the next iteration. -/
def attemptSucceeds : AttemptOutcome → Bool
  | .status code => code == 200
  | _ => false

/-- The `for attempt in range(max_retries)` loop of `callback.py` lines
31-63: try attempt `i`, return `true` on a 200, otherwise continue;
exhausting the budget returns `false` (line 66).  `outcomes` is the
environment's response to each attempt index. -/
def callbackAttempts (outcomes : Nat → AttemptOutcome) : Nat → Nat → Bool
  | _, 0 => false
  | i, n + 1 =>
    if attemptSucceeds (outcomes i) then true else callbackAttempts outcomes (i + 1) n

/-- `callback.py` `send_final_callback` with its retry bound made explicit
(the source's default argument is 3): a falsy (empty) destination URL skips
delivery and returns `false` without any attempt; otherwise run the bounded
retry loop. -/
def send_final_callback (url : String) (outcomes : Nat → AttemptOutcome)
    (maxRetries : Nat) : Bool :=
  if url = "" then false
  else callbackAttempts outcomes 0 maxRetries

/-- `memory.py` `cleanup_old_sessions`, with `current_time` and the parsed
`lastUpdated` timestamps as integers: first collect the ids whose idle time
strictly exceeds `maxAge` (the `to_delete` list), then delete those ids from
the store.  Entries the source skips (missing or unparseable `lastUpdated`)
do not arise here because every session the program stores carries the
field. -/
def cleanup_old_sessions (now : Int) (maxAge : Int) (store : Store) : Store :=
  let toDelete :=
    (store.filter (fun p => decide (now - p.2.lastUpdated > maxAge))).map Prod.fst
  store.filter (fun p => !(toDelete.contains p.1))

/-- Dict-level model of the intelligence bundle for the merge loop of
`main.py` lines 135-137: an association list from field name to value list,
as Python's dict of lists. -/
abbrev IntelDict := List (String × List String)

/-- One iteration of the merge loop: `if key in session["intel"]` guards the
update, so a key absent from the stored bundle is silently discarded; a
present key is overwritten in place with the deduplicated union. -/
def updateIntelKey (old : IntelDict) (key : String) (v : List String) : IntelDict :=
  if List.any old (fun p => p.1 == key) then
    List.map (fun p => if p.1 == key then (p.1, (p.2 ++ v).dedup) else p) old
  else old

/-- The whole merge loop `for key in intel: ...` (`main.py` lines 135-137)
over the extracted dict's entries. -/
def mergeIntelDict (old ext : IntelDict) : IntelDict :=
  ext.foldl (fun acc p => updateIntelKey acc p.1 p.2) old

/-- The six field names of a session's intel dict, in the insertion order of
`main.py` lines 106-113. -/
def intelFieldNames : List String :=
  ["bankAccounts", "upiIds", "phishingLinks", "phoneNumbers",
   "suspiciousKeywords", "emailAddresses"]

/-- The intel dict a fresh session starts with (`main.py` lines 106-113). -/
def initIntelDict : IntelDict := intelFieldNames.map (fun k => (k, []))

/-- View of a six-field bundle as the corresponding Python dict. -/
def Intel.toDict (i : Intel) : IntelDict :=
  [("bankAccounts", i.bankAccounts), ("upiIds", i.upiIds),
   ("phishingLinks", i.phishingLinks), ("phoneNumbers", i.phoneNumbers),
   ("suspiciousKeywords", i.suspiciousKeywords),
   ("emailAddresses", i.emailAddresses)]

/-- Sample extractor for concrete instantiations: extracts nothing. -/
def extractNone : String → Intel := fun _ => emptyIntel

/-- Sample extractor for concrete instantiations: a fixed bundle. -/
def extractConst : String → Intel := fun _ =>
  { bankAccounts := ["111122223333"], upiIds := ["a@ybl"], phishingLinks := []
    phoneNumbers := [], suspiciousKeywords := ["otp"], emailAddresses := [] }

/-- Sample high-scoring message: "share" (2) + "otp" (3) + "urgent" (2) +
"urgently" (2) give score 9. -/
def msgScam : Message :=
  { sender := "scammer", text := "share your otp urgently", timestamp := 0 }

/-- Sample innocuous message: no keyword matches, score 0. -/
def msgPlain : Message :=
  { sender := "scammer", text := "hello there", timestamp := 0 }

/-- Sample session: scam already detected, 7 messages stored, callback not
yet sent. -/
def sess7 : Session :=
  { sessionId := "w", messages := List.replicate 7 msgPlain
    scamDetected := true, scamScore := 9, intel := emptyIntel
    callbackSent := false, createdAt := 0, lastUpdated := 0 }

/-- Sample session with one extracted bank account on file. -/
def sessBank : Session :=
  { sessionId := "w2", messages := [msgPlain], scamDetected := false
    scamScore := 0, intel := { emptyIntel with bankAccounts := ["999900001111"] }
    callbackSent := false, createdAt := 0, lastUpdated := 0 }

/-- Sample stale session for the sweep (idle 100 at time 100). -/
def sessOld : Session :=
  { sessionId := "old", messages := [], scamDetected := false, scamScore := 0
    intel := emptyIntel, callbackSent := false, createdAt := 0, lastUpdated := 0 }

/-- Sample fresh session for the sweep (idle 10 at time 100). -/
def sessNew : Session := { sessOld with sessionId := "new", lastUpdated := 90 }

/-- Sample store for the sweep: one stale and one fresh session. -/
def sweepStore : Store := [("old", sessOld), ("new", sessNew)]

/-- Sample reporter environment: first attempt times out, second gets a 200,
later attempts would fail. -/
def outcomesW : Nat → AttemptOutcome
  | 0 => .timeout
  | 1 => .status 200
  | _ => .status 500

/-- Sample request body carrying the high-scoring message. -/
def bodyW : ChatRequest :=
  { sessionId := "w", message := msgScam, conversationHistory := [] }

lemma foldl_score_eq (f : String × Nat → Bool) (l : List (String × Nat)) (acc : Nat) :
    l.foldl (fun score p => if f p then score + p.2 else score) acc
      = acc + ((l.filter f).map Prod.snd).sum := by
  induction l generalizing acc with
  | nil => simp
  | cons hd tl ih =>
    by_cases h : f hd
    · simp [List.foldl_cons, ih, h, Nat.add_assoc]
    · simp [List.foldl_cons, ih, h]

lemma table_keys_lowercase :
    SCAM_SIGNALS.all (fun p => lowerChars p.1 == p.1.toList) = true := by decide

lemma containsKw_eq_spec (text : String) (p : String × Nat) (hp : p ∈ SCAM_SIGNALS) :
    containsKw text p.1 = charsContains (lowerChars p.1) (lowerChars text) := by
  have h := List.all_eq_true.mp table_keys_lowercase p hp
  have h2 : lowerChars p.1 = p.1.toList := eq_of_beq h
  rw [containsKw, h2]

lemma score_empty_spec : scoreSpec "" = 0 := by decide

/-- The source scorer agrees with the spec-side scorer on every text. -/
lemma detect_scam_score_eq_spec (text : String) :
    detect_scam_score text = scoreSpec text := by
  by_cases h : text = ""
  · subst h
    simp [detect_scam_score, score_empty_spec]
  · rw [detect_scam_score, if_neg h, foldl_score_eq, Nat.zero_add, scoreSpec]
    have hf : SCAM_SIGNALS.filter (fun p => containsKw text p.1)
        = SCAM_SIGNALS.filter
            (fun p => charsContains (lowerChars p.1) (lowerChars text)) := by
      apply List.filter_congr
      intro p hp
      rw [containsKw_eq_spec text p hp]
    rw [hf]

/-- Explicit closed form of one accumulator step. -/
lemma processMessage_eq (e : String → Intel) (r : Bool) (s : Session)
    (m : Message) (n : Int) :
    processMessage e r s m n =
      ({ s with
          messages := s.messages ++ [m]
          scamDetected := s.scamDetected || is_scam (pyStrip m.text)
          scamScore := s.scamScore + detect_scam_score (pyStrip m.text)
          intel := mergeIntel s.intel (e (pyStrip m.text))
          callbackSent := s.callbackSent ||
            ((s.scamDetected || is_scam (pyStrip m.text))
              && decide (s.messages.length + 1 ≥ 8) && !s.callbackSent)
          lastUpdated := n },
        (s.scamDetected || is_scam (pyStrip m.text))
          && decide (s.messages.length + 1 ≥ 8) && !s.callbackSent) := by
  by_cases h8 : s.messages.length + 1 ≥ 8 <;>
    cases hd : s.scamDetected <;> cases hi : is_scam (pyStrip m.text) <;>
      cases hc : s.callbackSent <;>
        simp [processMessage, hd, hi, hc, h8]

lemma processMessage_reporterResult_irrelevant (e : String → Intel)
    (r₁ r₂ : Bool) (s : Session) (m : Message) (n : Int) :
    processMessage e r₁ s m n = processMessage e r₂ s m n := rfl

lemma processMessage_snd (e : String → Intel) (r : Bool) (s : Session)
    (m : Message) (n : Int) :
    (processMessage e r s m n).2 =
      ((s.scamDetected || is_scam (pyStrip m.text))
        && decide (s.messages.length + 1 ≥ 8) && !s.callbackSent) := by
  rw [processMessage_eq]

lemma processMessage_scamDetected (e : String → Intel) (r : Bool) (s : Session)
    (m : Message) (n : Int) :
    (processMessage e r s m n).1.scamDetected
      = (s.scamDetected || is_scam (pyStrip m.text)) := by
  rw [processMessage_eq]

lemma processMessage_callbackSent (e : String → Intel) (r : Bool) (s : Session)
    (m : Message) (n : Int) :
    (processMessage e r s m n).1.callbackSent
      = (s.callbackSent || (processMessage e r s m n).2) := by
  rw [processMessage_eq]

lemma processMessage_messages (e : String → Intel) (r : Bool) (s : Session)
    (m : Message) (n : Int) :
    (processMessage e r s m n).1.messages = s.messages ++ [m] := by
  rw [processMessage_eq]

lemma Intel.get_mergeIntel (a b : Intel) (f : IntelField) :
    (mergeIntel a b).get f = mergeField (a.get f) (b.get f) := by
  cases f <;> rfl

lemma processMessage_intel_get (e : String → Intel) (r : Bool) (s : Session)
    (m : Message) (n : Int) (f : IntelField) :
    (processMessage e r s m n).1.intel.get f
      = mergeField (s.intel.get f) ((e (pyStrip m.text)).get f) := by
  rw [processMessage_eq]
  exact Intel.get_mergeIntel s.intel (e (pyStrip m.text)) f

lemma step_scam_mono (e : String → Intel) (r : Bool) (s : Session)
    (m : Message) (n : Int) (h : s.scamDetected = true) :
    (processMessage e r s m n).1.scamDetected = true := by
  rw [processMessage_scamDetected, h]
  rfl

lemma step_cb_mono (e : String → Intel) (r : Bool) (s : Session)
    (m : Message) (n : Int) (h : s.callbackSent = true) :
    (processMessage e r s m n).1.callbackSent = true := by
  rw [processMessage_callbackSent, h]
  rfl

lemma step_cb_true_not_called (e : String → Intel) (r : Bool) (s : Session)
    (m : Message) (n : Int) (h : s.callbackSent = true) :
    (processMessage e r s m n).2 = false := by
  rw [processMessage_snd, h]
  simp

lemma step_called_latches (e : String → Intel) (r : Bool) (s : Session)
    (m : Message) (n : Int) (h : (processMessage e r s m n).2 = true) :
    (processMessage e r s m n).1.callbackSent = true ∧ s.callbackSent = false := by
  constructor
  · rw [processMessage_callbackSent, h]
    simp
  · by_contra hc
    have hc' : s.callbackSent = true := by
      cases h2 : s.callbackSent
      · exact absurd h2 hc
      · rfl
    rw [step_cb_true_not_called e r s m n hc'] at h
    exact Bool.false_ne_true h

lemma run_scam_mono (e : String → Intel) (s : Session) (steps : List StepInput)
    (h : s.scamDetected = true) :
    (runProcess e s steps).1.scamDetected = true := by
  induction steps generalizing s with
  | nil => exact h
  | cons inp rest ih =>
    exact ih _ (step_scam_mono e inp.reporterResult s inp.msg inp.now h)

lemma run_cb_mono (e : String → Intel) (s : Session) (steps : List StepInput)
    (h : s.callbackSent = true) :
    (runProcess e s steps).1.callbackSent = true := by
  induction steps generalizing s with
  | nil => exact h
  | cons inp rest ih =>
    exact ih _ (step_cb_mono e inp.reporterResult s inp.msg inp.now h)

lemma run_count_zero (e : String → Intel) (s : Session) (steps : List StepInput)
    (h : s.callbackSent = true) :
    (runProcess e s steps).2 = 0 := by
  induction steps generalizing s with
  | nil => rfl
  | cons inp rest ih =>
    show (if (processMessage e inp.reporterResult s inp.msg inp.now).2
            then 1 else 0)
        + (runProcess e (processMessage e inp.reporterResult s inp.msg inp.now).1 rest).2 = 0
    rw [step_cb_true_not_called e inp.reporterResult s inp.msg inp.now h,
        ih _ (step_cb_mono e inp.reporterResult s inp.msg inp.now h)]
    simp

lemma run_count_le_one (e : String → Intel) (s : Session) (steps : List StepInput) :
    (runProcess e s steps).2 ≤ 1 := by
  induction steps generalizing s with
  | nil => exact Nat.zero_le 1
  | cons inp rest ih =>
    show (if (processMessage e inp.reporterResult s inp.msg inp.now).2
            then 1 else 0)
        + (runProcess e (processMessage e inp.reporterResult s inp.msg inp.now).1 rest).2 ≤ 1
    cases hcall : (processMessage e inp.reporterResult s inp.msg inp.now).2
    · simpa using ih (processMessage e inp.reporterResult s inp.msg inp.now).1
    · have hlatch := (step_called_latches e inp.reporterResult s inp.msg inp.now hcall).1
      rw [run_count_zero e _ rest hlatch]
      simp

lemma mem_mergeField (x : String) (old new : List String) :
    x ∈ mergeField old new ↔ x ∈ old ∨ x ∈ new := by
  simp [mergeField]

lemma mergeField_nodup (old new : List String) : (mergeField old new).Nodup :=
  List.nodup_dedup _

lemma run_intel_nodup (e : String → Intel) (s : Session) (steps : List StepInput)
    (f : IntelField) (h : (s.intel.get f).Nodup) :
    ((runProcess e s steps).1.intel.get f).Nodup := by
  induction steps generalizing s with
  | nil => exact h
  | cons inp rest ih =>
    refine ih _ ?_
    rw [processMessage_intel_get]
    exact mergeField_nodup _ _

lemma run_intel_mem (e : String → Intel) (s : Session) (steps : List StepInput)
    (f : IntelField) (x : String) :
    (x ∈ (runProcess e s steps).1.intel.get f ↔
      x ∈ s.intel.get f ∨ ∃ inp ∈ steps, x ∈ (e (pyStrip inp.msg.text)).get f) := by
  induction steps generalizing s with
  | nil => simp [runProcess]
  | cons inp rest ih =>
    show x ∈ (runProcess e (processMessage e inp.reporterResult s inp.msg inp.now).1 rest).1.intel.get f ↔ _
    rw [ih, processMessage_intel_get, mem_mergeField]
    constructor
    · rintro ((hx | hx) | ⟨i, hi, hx⟩)
      · exact Or.inl hx
      · exact Or.inr ⟨inp, List.mem_cons_self _ _, hx⟩
      · exact Or.inr ⟨i, List.mem_cons_of_mem _ hi, hx⟩
    · rintro (hx | ⟨i, hi, hx⟩)
      · exact Or.inl (Or.inl hx)
      · rcases List.mem_cons.mp hi with hi | hi
        · subst hi
          exact Or.inl (Or.inr hx)
        · exact Or.inr ⟨i, hi, hx⟩

lemma emptyIntel_get (f : IntelField) : emptyIntel.get f = [] := by
  cases f <;> rfl

/-- C1: over the whole life of a session the reporter is invoked at most
once; on any single step it is invoked exactly when, after this message,
`scamDetected` is true, the stored message count is at least 8, and
`callbackSent` was still false; whenever it is invoked the session leaves
the step with `callbackSent = true`; and the step's outcome is the same
whatever the reporter's delivery result is, so a delivery failure still
latches the flag and no later message can trigger another invocation. -/
theorem claim_C1_callback_at_most_once (e : String → Intel) :
    (∀ sid now0 steps, (runProcess e (initSession sid now0) steps).2 ≤ 1)
    ∧ (∀ r s m n,
        ((processMessage e r s m n).2 = true ↔
          ((processMessage e r s m n).1.scamDetected = true
            ∧ (processMessage e r s m n).1.messages.length ≥ 8
            ∧ s.callbackSent = false)))
    ∧ (∀ r s m n, (processMessage e r s m n).2 = true →
        (processMessage e r s m n).1.callbackSent = true)
    ∧ (∀ r₁ r₂ s m n, processMessage e r₁ s m n = processMessage e r₂ s m n) := by
  refine ⟨fun sid now0 steps => run_count_le_one e _ steps, fun r s m n => ?_,
    fun r s m n h => (step_called_latches e r s m n h).1,
    fun r₁ r₂ s m n => processMessage_reporterResult_irrelevant e r₁ r₂ s m n⟩
  rw [processMessage_snd, processMessage_scamDetected, processMessage_messages]
  cases hd : s.scamDetected <;> cases hi : is_scam (pyStrip m.text) <;>
    cases hc : s.callbackSent <;> simp

theorem claim_C1_witness :
    (processMessage extractNone true sess7 msgScam 2).2 = true
    ∧ (processMessage extractNone true sess7 msgScam 2).1.callbackSent = true := by
  have h : (processMessage extractNone true sess7 msgScam 2).2 = true := by decide
  exact ⟨h, (claim_C1_callback_at_most_once extractNone).2.2.1 true sess7 msgScam 2 h⟩

/-- C2: a message whose per-message score `detect_scam_score` (of its
trimmed text) reaches the threshold 4 latches `scamDetected` on a session
where it was false, whatever the prior cumulative score; a message whose
per-message score is below 4 never latches it on its own, whatever the
cumulative score. -/
theorem claim_C2_per_message_latch (e : String → Intel) (r : Bool) (s : Session)
    (m : Message) (n : Int) :
    (detect_scam_score (pyStrip m.text) ≥ THRESHOLD → s.scamDetected = false →
      (processMessage e r s m n).1.scamDetected = true)
    ∧ (detect_scam_score (pyStrip m.text) < THRESHOLD → s.scamDetected = false →
      (processMessage e r s m n).1.scamDetected = false) := by
  constructor
  · intro hscore hdet
    rw [processMessage_scamDetected, hdet, is_scam, decide_eq_true hscore]
    rfl
  · intro hscore hdet
    rw [processMessage_scamDetected, hdet, is_scam]
    simp
    omega

theorem claim_C2_witness :
    (detect_scam_score (pyStrip msgScam.text) ≥ THRESHOLD
      ∧ (processMessage extractNone true sessBank msgScam 2).1.scamDetected = true)
    ∧ (detect_scam_score (pyStrip msgPlain.text) < THRESHOLD
      ∧ (processMessage extractNone true sessBank msgPlain 2).1.scamDetected = false) :=
  ⟨⟨by decide, (claim_C2_per_message_latch extractNone true sessBank msgScam 2).1
      (by decide) (by decide)⟩,
   ⟨by decide, (claim_C2_per_message_latch extractNone true sessBank msgPlain 2).2
      (by decide) (by decide)⟩⟩

/-- C3: `scamDetected` and `callbackSent` are one-way latches: one handled
message never turns either from true to false, and over any sequence of
handled messages a flag once true stays true; no operation of the handler
resets either flag. -/
theorem claim_C3_latches (e : String → Intel) (r : Bool) (s : Session)
    (m : Message) (n : Int) :
    (s.scamDetected = true → (processMessage e r s m n).1.scamDetected = true)
    ∧ (s.callbackSent = true → (processMessage e r s m n).1.callbackSent = true)
    ∧ (∀ steps,
        (s.scamDetected = true → (runProcess e s steps).1.scamDetected = true)
        ∧ (s.callbackSent = true → (runProcess e s steps).1.callbackSent = true)) :=
  ⟨step_scam_mono e r s m n, step_cb_mono e r s m n,
   fun steps => ⟨run_scam_mono e s steps, run_cb_mono e s steps⟩⟩

theorem claim_C3_witness :
    (processMessage extractNone true sess7 msgPlain 2).1.scamDetected = true
    ∧ (runProcess extractNone { sess7 with callbackSent := true }
        [⟨msgPlain, 3, true⟩]).1.callbackSent = true :=
  ⟨(claim_C3_latches extractNone true sess7 msgPlain 2).1 (by decide),
   ((claim_C3_latches extractNone true { sess7 with callbackSent := true }
      msgPlain 2).2.2 [⟨msgPlain, 3, true⟩]).2 (by decide)⟩

/-- C4: each of the six intelligence sets only grows: one handled message
keeps every previously recorded entry; and over the life of a session each
set holds no duplicates and is exactly the deduplicated union of the
per-message extractions seen so far. -/
theorem claim_C4_intel_accumulation (e : String → Intel) (f : IntelField) :
    (∀ r s m n x, x ∈ s.intel.get f →
      x ∈ (processMessage e r s m n).1.intel.get f)
    ∧ (∀ sid now0 steps,
        ((runProcess e (initSession sid now0) steps).1.intel.get f).Nodup
        ∧ (∀ x, x ∈ (runProcess e (initSession sid now0) steps).1.intel.get f ↔
            ∃ inp ∈ steps, x ∈ (e (pyStrip inp.msg.text)).get f)) := by
  constructor
  · intro r s m n x hx
    rw [processMessage_intel_get, mem_mergeField]
    exact Or.inl hx
  · intro sid now0 steps
    constructor
    · apply run_intel_nodup
      rw [show (initSession sid now0).intel = emptyIntel from rfl, emptyIntel_get]
      exact List.nodup_nil
    · intro x
      rw [run_intel_mem]
      rw [show (initSession sid now0).intel = emptyIntel from rfl, emptyIntel_get]
      simp

theorem claim_C4_witness :
    "999900001111" ∈
      (processMessage extractConst true sessBank msgPlain 2).1.intel.get
        IntelField.bankAccounts :=
  (claim_C4_intel_accumulation extractConst IntelField.bankAccounts).1
    true sessBank msgPlain 2 "999900001111" (by decide)

/-- C5: for a valid request (correct shared secret, text non-empty after
trimming) the HTTP result — and with it status, reply, `scamDetected`,
`scamScore` and `messageCount` — together with the in-memory map and the
reporter decision are identical whether the Redis save succeeds or fails,
and the result is a success response: a save failure is absorbed. -/
theorem claim_C5_save_failure_absorbed (cfgKey : String) (e : String → Intel)
    (replyText : String) (redis : Option Store) (memory : Store)
    (getOk r : Bool) (body : ChatRequest) (now : Int)
    (hvalid : ¬ pyStrip body.message.text = "") :
    ((chat cfgKey cfgKey e replyText redis memory getOk true r body now).result
      = (chat cfgKey cfgKey e replyText redis memory getOk false r body now).result)
    ∧ ((chat cfgKey cfgKey e replyText redis memory getOk true r body now).memory
      = (chat cfgKey cfgKey e replyText redis memory getOk false r body now).memory)
    ∧ ((chat cfgKey cfgKey e replyText redis memory getOk true r body now).reporterCalled
      = (chat cfgKey cfgKey e replyText redis memory getOk false r body now).reporterCalled)
    ∧ ∃ resp,
        (chat cfgKey cfgKey e replyText redis memory getOk true r body now).result
          = Except.ok resp := by
  refine ⟨?_, ?_, ?_, ?_⟩ <;> simp [chat, hvalid]

theorem claim_C5_witness :
    (chat "k" "k" extractNone "ok" (some []) [] true true true bodyW 3).result
      = (chat "k" "k" extractNone "ok" (some []) [] true false true bodyW 3).result :=
  (claim_C5_save_failure_absorbed "k" extractNone "ok" (some []) [] true true
    bodyW 3 (by decide)).1

/-- C6: a wrong shared secret is rejected with the auth error and an empty
trimmed message text (under a correct secret) with the validation error; in
both cases the handler returns with the Redis store and the in-memory map
exactly as they were and without invoking the reporter, so no session state
is created or mutated and no store-write or reporter side effect occurs. -/
theorem claim_C6_reject_before_side_effects (cfgKey xApiKey : String)
    (e : String → Intel) (replyText : String) (redis : Option Store)
    (memory : Store) (getOk saveOk r : Bool) (body : ChatRequest) (now : Int) :
    (xApiKey ≠ cfgKey →
      chat cfgKey xApiKey e replyText redis memory getOk saveOk r body now
        = { result := .error .authError, redis := redis, memory := memory
            reporterCalled := false })
    ∧ (xApiKey = cfgKey → pyStrip body.message.text = "" →
      chat cfgKey xApiKey e replyText redis memory getOk saveOk r body now
        = { result := .error .validationError, redis := redis, memory := memory
            reporterCalled := false }) := by
  constructor
  · intro h
    simp [chat, h]
  · intro hk ht
    subst hk
    simp [chat, ht]

theorem claim_C6_witness :
    (chat "k" "wrong" extractNone "ok" none [] true true true bodyW 3
      = { result := .error .authError, redis := none, memory := []
          reporterCalled := false })
    ∧ (chat "k" "k" extractNone "ok" none [] true true true
        { bodyW with message := { sender := "s", text := "  ", timestamp := 0 } } 3
      = { result := .error .validationError, redis := none, memory := []
          reporterCalled := false }) :=
  ⟨(claim_C6_reject_before_side_effects "k" "wrong" extractNone "ok" none []
      true true true bodyW 3).1 (by decide),
   (claim_C6_reject_before_side_effects "k" "k" extractNone "ok" none []
      true true true
      { bodyW with message := { sender := "s", text := "  ", timestamp := 0 } } 3).2
      rfl (by decide)⟩

lemma callbackAttempts_three (o : Nat → AttemptOutcome) :
    callbackAttempts o 0 3 =
      (attemptSucceeds (o 0) || attemptSucceeds (o 1) || attemptSucceeds (o 2)) := by
  cases h0 : attemptSucceeds (o 0) <;> cases h1 : attemptSucceeds (o 1) <;>
    cases h2 : attemptSucceeds (o 2) <;>
    simp [callbackAttempts, h0, h1, h2]

/-- C7: the reporter makes at most 3 attempts — its result depends only on
the first three attempt outcomes — succeeds exactly when one of those
attempts gets an HTTP 200 (any other status, timeout, connection or other
fault merely falls through to the next attempt), fails once all three are
exhausted, and with no destination URL configured fails without any
attempt, its result independent of every attempt outcome. -/
theorem claim_C7_reporter_retry_bound (url : String)
    (outcomes : Nat → AttemptOutcome) :
    (send_final_callback url outcomes 3 = true ↔
      ¬ url = "" ∧ ∃ i, i < 3 ∧ attemptSucceeds (outcomes i) = true)
    ∧ (∀ outcomes₂ : Nat → AttemptOutcome, (∀ i, i < 3 → outcomes i = outcomes₂ i) →
        send_final_callback url outcomes 3 = send_final_callback url outcomes₂ 3)
    ∧ (∀ outcomes₂ : Nat → AttemptOutcome,
        send_final_callback "" outcomes₂ 3 = false) := by
  refine ⟨?_, ?_, fun outcomes₂ => by simp [send_final_callback]⟩
  · by_cases hu : url = ""
    · simp [send_final_callback, hu]
    · rw [send_final_callback, if_neg hu, callbackAttempts_three]
      constructor
      · intro h
        refine ⟨hu, ?_⟩
        rcases Bool.or_eq_true_iff.mp h with h | h
        · rcases Bool.or_eq_true_iff.mp h with h | h
          · exact ⟨0, by omega, h⟩
          · exact ⟨1, by omega, h⟩
        · exact ⟨2, by omega, h⟩
      · rintro ⟨-, i, hi, hsucc⟩
        interval_cases i <;> simp [hsucc]
  · intro outcomes₂ h
    by_cases hu : url = ""
    · simp [send_final_callback, hu]
    · rw [send_final_callback, send_final_callback, if_neg hu, if_neg hu,
          callbackAttempts_three, callbackAttempts_three,
          h 0 (by omega), h 1 (by omega), h 2 (by omega)]

theorem claim_C7_witness :
    send_final_callback "https://collector.example" outcomesW 3 = true :=
  (claim_C7_reporter_retry_bound "https://collector.example" outcomesW).1.mpr
    ⟨by decide, 1, by omega, by decide⟩

lemma eq_of_mem_of_nodup_keys {l : Store} (hnd : (l.map Prod.fst).Nodup)
    {a : String} {b c : Session} (h1 : (a, b) ∈ l) (h2 : (a, c) ∈ l) : b = c := by
  induction l with
  | nil => cases h1
  | cons hd tl ih =>
    rw [List.map_cons, List.nodup_cons] at hnd
    rcases List.mem_cons.mp h1 with h1 | h1 <;>
      rcases List.mem_cons.mp h2 with h2 | h2
    · exact ((Prod.mk.injEq a b a c).mp (h1.trans h2.symm)).2
    · exfalso
      apply hnd.1
      exact List.mem_map.mpr ⟨(a, c), h2, by rw [← h1]⟩
    · exfalso
      apply hnd.1
      exact List.mem_map.mpr ⟨(a, b), h1, by rw [← h2]⟩
    · exact ih hnd.2 h1 h2

lemma mem_toDelete_iff (now maxAge : Int) (store : Store)
    (hnd : (store.map Prod.fst).Nodup) (sid : String) (s : Session)
    (hmem : (sid, s) ∈ store) :
    (sid ∈ (store.filter
        (fun p => decide (now - p.2.lastUpdated > maxAge))).map Prod.fst
      ↔ now - s.lastUpdated > maxAge) := by
  constructor
  · intro h
    rcases List.mem_map.mp h with ⟨p, hp, hfst⟩
    obtain ⟨p1, p2⟩ := p
    rcases List.mem_filter.mp hp with ⟨hpstore, hcond⟩
    simp only at hfst
    subst hfst
    have hps : p2 = s := eq_of_mem_of_nodup_keys hnd hpstore hmem
    subst hps
    exact of_decide_eq_true hcond
  · intro hgt
    exact List.mem_map.mpr
      ⟨(sid, s), List.mem_filter.mpr ⟨hmem, decide_eq_true hgt⟩, rfl⟩

/-- C8: for every store state with unique session ids (as in a Python dict)
and every age bound, the sweep keeps exactly the entries, unchanged, whose
idle time `now - lastUpdated` does not exceed `maxAge`, and removes exactly
those whose idle time strictly exceeds it. -/
theorem claim_C8_sweep_exact (now maxAge : Int) (store : Store)
    (hnd : (store.map Prod.fst).Nodup) (sid : String) (s : Session) :
    ((sid, s) ∈ cleanup_old_sessions now maxAge store ↔
      ((sid, s) ∈ store ∧ ¬(now - s.lastUpdated > maxAge))) := by
  unfold cleanup_old_sessions
  rw [List.mem_filter]
  constructor
  · rintro ⟨hmem, hnc⟩
    refine ⟨hmem, fun hgt => ?_⟩
    rw [Bool.not_eq_true', ← Bool.not_eq_true] at hnc
    apply hnc
    exact List.elem_iff.mpr
      ((mem_toDelete_iff now maxAge store hnd sid s hmem).mpr hgt)
  · rintro ⟨hmem, hgt⟩
    refine ⟨hmem, ?_⟩
    rw [Bool.not_eq_true', ← Bool.not_eq_true]
    intro hc
    exact hgt ((mem_toDelete_iff now maxAge store hnd sid s hmem).mp
      (List.elem_iff.mp hc))

theorem claim_C8_witness :
    ("new", sessNew) ∈ cleanup_old_sessions 100 50 sweepStore :=
  (claim_C8_sweep_exact 100 50 sweepStore (by decide) "new" sessNew).mpr
    ⟨by decide, by decide⟩

/-- C9: the score of a text is the sum of the weights of the table entries
whose key occurs case-insensitively as a substring of the text, each entry
counted at most once; consequently a text matching no configured keyword
scores 0, and handling such a message in a session where `scamDetected` is
false leaves it false. -/
theorem claim_C9_scorer (text : String) :
    detect_scam_score text = scoreSpec text
    ∧ ((∀ p ∈ SCAM_SIGNALS,
          charsContains (lowerChars p.1) (lowerChars text) = false) →
        detect_scam_score text = 0
        ∧ ∀ (e : String → Intel) (r : Bool) (s : Session) (m : Message) (n : Int),
            pyStrip m.text = text → s.scamDetected = false →
            (processMessage e r s m n).1.scamDetected = false) := by
  refine ⟨detect_scam_score_eq_spec text, fun hnone => ?_⟩
  have hzero : detect_scam_score text = 0 := by
    rw [detect_scam_score_eq_spec, scoreSpec]
    have hf : SCAM_SIGNALS.filter
        (fun p => charsContains (lowerChars p.1) (lowerChars text)) = [] := by
      rw [List.filter_eq_nil_iff]
      intro p hp
      simp [hnone p hp]
    rw [hf]
    rfl
  refine ⟨hzero, fun e r s m n hm hdet => ?_⟩
  rw [processMessage_scamDetected, hdet, hm, is_scam, hzero]
  rfl

theorem claim_C9_witness :
    detect_scam_score "hello there" = 0
    ∧ (processMessage extractNone true sessBank msgPlain 2).1.scamDetected
        = false := by
  have h := (claim_C9_scorer "hello there").2 (by decide)
  exact ⟨h.1, h.2 extractNone true sessBank msgPlain 2 (by decide) rfl⟩

lemma map_update_keys (l : IntelDict) (k : String) (v : List String) :
    (l.map (fun p => if p.1 == k then (p.1, (p.2 ++ v).dedup) else p)).map
        Prod.fst
      = l.map Prod.fst := by
  induction l with
  | nil => rfl
  | cons hd tl ih =>
    rw [List.map_cons, List.map_cons, List.map_cons, ih]
    by_cases h : hd.1 == k
    · rw [if_pos h]
    · rw [if_neg h]

lemma updateIntelKey_keys (old : IntelDict) (k : String) (v : List String) :
    (updateIntelKey old k v).map Prod.fst = old.map Prod.fst := by
  unfold updateIntelKey
  split
  · exact map_update_keys old k v
  · rfl

/-- On the six-key dicts the program actually stores, the dict-level merge
loop computes exactly the field-wise structure merge used in
`processMessage`. -/
lemma mergeIntelDict_toDict (a b : Intel) :
    mergeIntelDict a.toDict b.toDict = (mergeIntel a b).toDict := rfl

lemma mergeIntelDict_keys (old ext : IntelDict) :
    (mergeIntelDict old ext).map Prod.fst = old.map Prod.fst := by
  unfold mergeIntelDict
  induction ext generalizing old with
  | nil => rfl
  | cons hd tl ih => rw [List.foldl_cons, ih, updateIntelKey_keys]

/-- C10: the merge loop unions only extracted fields whose key is already a
key of the stored intel dict and silently discards every other key, so the
key set of a session's intel dict never changes; starting from the
six-field dict of session creation, any sequence of merges leaves exactly
the six field names in place. -/
theorem claim_C10_intel_keys_fixed :
    (∀ old ext : IntelDict,
      (mergeIntelDict old ext).map Prod.fst = old.map Prod.fst)
    ∧ (∀ exts : List IntelDict,
        (exts.foldl mergeIntelDict initIntelDict).map Prod.fst
          = intelFieldNames) := by
  refine ⟨mergeIntelDict_keys, fun exts => ?_⟩
  have hgen : ∀ (l : List IntelDict) (d : IntelDict),
      (l.foldl mergeIntelDict d).map Prod.fst = d.map Prod.fst := by
    intro l
    induction l with
    | nil => intro d; rfl
    | cons hd tl ih =>
      intro d
      rw [List.foldl_cons, ih, mergeIntelDict_keys]
  rw [hgen]
  rfl

end Honeypot
